import Mathlib

/-!
Shallow embedding of the rcluster connection protocol engine
(`src/rcluster/src/connection.rs`) and the legacy node registry
(`src/src/master.rs`).

Streams are modelled as byte lists: a `Connection` holds the bytes still
pending on its readable half, the bytes emitted so far on its writable
half, and the magic nonce.  Every fallible protocol operation returns an
`Except ClusterError` value; `buffered_file_write` additionally has a
distinguished panicking outcome, mirroring the unchecked slice it performs.
Bytes are natural numbers; where byte-ness matters a `< 256` bound appears
as an explicit hypothesis.
-/

namespace RCluster

/-- Length of the random separator used in a connection for boundaries
(`MAGIC_LENGTH` in `connection.rs`). -/
def MAGIC_LENGTH : Nat := 16

/-- Different flags which represent the goal of the request/response
(`ConnectionFlag` in `connection.rs`, declared in this order with
`#[repr(u8)]` and no explicit discriminants). -/
inductive ConnectionFlag where
  | MasterPing
  | SlaveOk
  | MasterWantsPath
  | MasterSendsPath
  | MasterWantsExecution
  deriving DecidableEq, Repr

/-- `impl Into<u8> for ConnectionFlag` — `self as u8`, the dense ordinal of
the declaration order starting at 0. -/
def ConnectionFlag.toU8 : ConnectionFlag → Nat
  | .MasterPing => 0
  | .SlaveOk => 1
  | .MasterWantsPath => 2
  | .MasterSendsPath => 3
  | .MasterWantsExecution => 4

/-- `ConnectionFlag::from_u8`, generated by `enum_from_primitive!`: the
inverse of the dense ordinal assignment, `none` on any other byte. -/
def ConnectionFlag.from_u8 : Nat → Option ConnectionFlag
  | 0 => some .MasterPing
  | 1 => some .SlaveOk
  | 2 => some .MasterWantsPath
  | 3 => some .MasterSendsPath
  | 4 => some .MasterWantsExecution
  | _ => none

/-- The error kinds of `errors.rs` that the connection engine produces:
an underlying I/O failure or an unrecognized flag byte. -/
inductive ClusterError where
  | IoFailure
  | UnknownFlag
  deriving DecidableEq, Repr

/-- A connection: the buffered readable half (bytes still pending on the
wire), the buffered writable half (bytes emitted so far), and the magic
nonce (`Connection` in `connection.rs`). -/
structure Connection where
  reader : List Nat
  writer : List Nat
  magic : List Nat
  deriving DecidableEq, Repr

/-- `tokio_io::io::read_exact` over the modelled readable half: succeeds
with exactly `n` bytes, or fails with an I/O error when the stream ends
first. -/
def read_exact (conn : Connection) (n : Nat) :
    Except ClusterError (Connection × List Nat) :=
  if n ≤ conn.reader.length then
    .ok ({ conn with reader := conn.reader.drop n }, conn.reader.take n)
  else
    .error .IoFailure

/-- `Connection::write_bytes`: append the byte sequence to the writable
half and flush. -/
def write_bytes (conn : Connection) (bytes : List Nat) : Connection :=
  { conn with writer := conn.writer ++ bytes }

/-- `Connection::read_magic`: read exactly `MAGIC_LENGTH` bytes, replacing
the magic bytes that already exist in the connection. -/
def read_magic (conn : Connection) : Except ClusterError Connection :=
  match read_exact conn MAGIC_LENGTH with
  | .error e => .error e
  | .ok (c, m) => .ok { c with magic := m }

/-- `Connection::write_magic`: write the current magic to the stream
(delegates to `write_bytes`). -/
def write_magic (conn : Connection) : Connection :=
  write_bytes conn conn.magic

/-- `Connection::read_flag`: read one byte, map it through
`ConnectionFlag::from_u8`, failing with `UnknownFlag` when it matches no
ordinal. -/
def read_flag (conn : Connection) :
    Except ClusterError (Connection × ConnectionFlag) :=
  match read_exact conn 1 with
  | .error e => .error e
  | .ok (c, flagByte) =>
    match ConnectionFlag.from_u8 (flagByte.headD 0) with
    | none => .error .UnknownFlag
    | some f => .ok (c, f)

/-- `Connection::write_flag`: write the flag ordinal as a single byte
(delegates to `write_bytes`). -/
def write_flag (conn : Connection) (flag : ConnectionFlag) : Connection :=
  write_bytes conn [flag.toU8]

/-- `Connection::handle_flags`: read a flag, echo the magic, then branch —
`MasterPing` answers with `SlaveOk`, every other flag is logged and the
connection returned unchanged. -/
def handle_flags (conn : Connection) : Except ClusterError Connection :=
  match read_flag conn with
  | .error e => .error e
  | .ok (c, flag) =>
    let c := write_magic c
    match flag with
    | .MasterPing => .ok (write_flag c .SlaveOk)
    | _ => .ok c

/-- `StreamingConnection::create_for_stream` for a fresh stream: the nonce
field starts zeroed; an accepting connection (`expect_magic = true`) then
performs `read_magic`, an initiating one fills the nonce from the RNG
(modelled as the explicit argument `rng`, which `rand::thread_rng`
produces in the source) and performs `write_magic`. -/
def create_for_stream (reader : List Nat) (expect_magic : Bool)
    (rng : List Nat) : Except ClusterError Connection :=
  let conn : Connection :=
    { reader := reader, writer := [], magic := List.replicate MAGIC_LENGTH 0 }
  if expect_magic then
    read_magic conn
  else
    .ok (write_magic { conn with magic := rng })

/-- Outcome of `buffered_file_write`: success, a protocol error, or a Rust
panic (the out-of-bounds slice the function can perform). -/
inductive PResult (α : Type) where
  | ok : α → PResult α
  | err : ClusterError → PResult α
  | panicked : PResult α
  deriving DecidableEq, Repr

/-- `tokio_io::io::read_until` with delimiter `\n` (byte 10): consume
bytes up to and including the first newline, or up to end-of-stream when
no newline arrives; return the consumed bytes and the remainder. -/
def read_until_newline : List Nat → List Nat × List Nat
  | [] => ([], [])
  | b :: rest =>
    if b = 10 then ([b], rest)
    else
      let p := read_until_newline rest
      (b :: p.1, p.2)

/-- `String::from_utf8_lossy`: total UTF-8 decoding into unicode scalar
values, substituting U+FFFD for each ill-formed subsequence instead of
failing. -/
def from_utf8_lossy (l : List Nat) : List Nat :=
  match l with
  | [] => []
  | b :: rest =>
    if b < 0x80 then
      b :: from_utf8_lossy rest
    else if b < 0xC2 then
      0xFFFD :: from_utf8_lossy rest
    else if b < 0xE0 then
      match rest with
      | [] => [0xFFFD]
      | b2 :: rest2 =>
        if 0x80 ≤ b2 ∧ b2 < 0xC0 then
          ((b - 0xC0) * 0x40 + (b2 - 0x80)) :: from_utf8_lossy rest2
        else
          0xFFFD :: from_utf8_lossy (b2 :: rest2)
    else if b < 0xF0 then
      match rest with
      | [] => [0xFFFD]
      | b2 :: rest2 =>
        if (if b = 0xE0 then 0xA0 else 0x80) ≤ b2 ∧
            b2 < (if b = 0xED then 0xA0 else 0xC0) then
          match rest2 with
          | [] => [0xFFFD]
          | b3 :: rest3 =>
            if 0x80 ≤ b3 ∧ b3 < 0xC0 then
              ((b - 0xE0) * 0x1000 + (b2 - 0x80) * 0x40 + (b3 - 0x80)) ::
                from_utf8_lossy rest3
            else
              0xFFFD :: from_utf8_lossy (b3 :: rest3)
        else
          0xFFFD :: from_utf8_lossy (b2 :: rest2)
    else if b < 0xF5 then
      match rest with
      | [] => [0xFFFD]
      | b2 :: rest2 =>
        if (if b = 0xF0 then 0x90 else 0x80) ≤ b2 ∧
            b2 < (if b = 0xF4 then 0x90 else 0xC0) then
          match rest2 with
          | [] => [0xFFFD]
          | b3 :: rest3 =>
            if 0x80 ≤ b3 ∧ b3 < 0xC0 then
              match rest3 with
              | [] => [0xFFFD]
              | b4 :: rest4 =>
                if 0x80 ≤ b4 ∧ b4 < 0xC0 then
                  ((b - 0xF0) * 0x40000 + (b2 - 0x80) * 0x1000 +
                      (b3 - 0x80) * 0x40 + (b4 - 0x80)) ::
                    from_utf8_lossy rest4
                else
                  0xFFFD :: from_utf8_lossy (b4 :: rest4)
            else
              0xFFFD :: from_utf8_lossy (b3 :: rest3)
        else
          0xFFFD :: from_utf8_lossy (b2 :: rest2)
    else
      0xFFFD :: from_utf8_lossy rest

/-- Modelled from the spec: `StreamingBuffer::stream_to_file` followed by
`stream()` (their source lives in the `buffered` module, which is not
among the provided files).  Per §4.4 the receiver streams all bytes into
the destination until the magic nonce is sighted as a contiguous
terminator; bytes at or after the terminator are not file content, and
the terminator itself is consumed.  The result is the file content and
the bytes left on the stream, or `none` when the stream ends before a
terminator appears. -/
def stream_to_file (magic : List Nat) :
    List Nat → Option (List Nat × List Nat)
  | [] => none
  | b :: rest =>
    if magic.isPrefixOf (b :: rest) then
      some ([], (b :: rest).drop magic.length)
    else
      match stream_to_file magic rest with
      | some (content, rem) => some (b :: content, rem)
      | none => none

/-- The observable effect of a received file transfer: the destination
path as decoded by the receiver and the bytes written to it. -/
structure FsWrite where
  path : List Nat
  content : List Nat
  deriving DecidableEq, Repr

/-- `Connection::buffered_file_write`: read up to the newline, slice off
the final byte with `bytes[..bytes.len() - 1]` (a panic when no byte was
read), decode the path lossily, stream the content up to the magic
terminator, then acknowledge with `SlaveOk`. -/
def buffered_file_write (conn : Connection) :
    PResult (Connection × FsWrite) :=
  let p := read_until_newline conn.reader
  if p.1.length = 0 then
    .panicked
  else
    let path_str := from_utf8_lossy (p.1.take (p.1.length - 1))
    match stream_to_file conn.magic p.2 with
    | none => .err .IoFailure
    | some (content, rem) =>
      .ok (write_flag { conn with reader := rem } .SlaveOk,
           { path := path_str, content := content })

end RCluster

namespace Registry

/-- The legacy synchronous node registry (`Cluster` in `master.rs`): a
sequence of address strings. -/
structure Cluster where
  addrs : List String
  deriving DecidableEq, Repr

/-- The network-visible outcome of one ping attempt, the effects that
`ping_addr` observes: the TCP connect can fail, writing the
`ProcessType::Ping` request can fail, or a reply byte is read (the read
error being discarded, a failed read leaves the zero-initialized
buffer). -/
inductive PingNet where
  | connectFail : String → PingNet
  | pingFail : String → PingNet
  | replied : Nat → PingNet
  | noReply : PingNet
  deriving DecidableEq, Repr

/-- `Cluster::ping_addr`: connect, send the ping request, read one byte
(ignoring a read failure, which leaves the byte 0), and succeed exactly
when the byte is non-zero. -/
def ping_addr (net : PingNet) (addr : String) : Except String Unit :=
  match net with
  | .connectFail e =>
    .error ("Cannot connect to " ++ addr ++ " (" ++ e ++ ")")
  | .pingFail e =>
    .error ("Cannot ping " ++ addr ++ " (" ++ e ++ ")")
  | .replied b =>
    if b > 0 then .ok ()
    else .error ("Failure receiving message from address: " ++ addr)
  | .noReply =>
    .error ("Failure receiving message from address: " ++ addr)

/-- `Cluster::add_node`: ping the address first with the `?` operator and
push it onto the list only on success; the pair returned is the registry
after the call and the `Result` the caller sees. -/
def add_node (net : PingNet) (c : Cluster) (addr : String) :
    Cluster × Except String Unit :=
  match ping_addr net addr with
  | .error e => (c, .error e)
  | .ok _ => ({ addrs := c.addrs ++ [addr] }, .ok ())

end Registry

namespace RCluster

lemma from_u8_toU8 (f : ConnectionFlag) :
    ConnectionFlag.from_u8 f.toU8 = some f := by
  cases f <;> rfl

lemma from_u8_ge (n : Nat) : ConnectionFlag.from_u8 (n + 5) = none := rfl

lemma read_flag_eq (conn : Connection) (f : ConnectionFlag) (rest : List Nat)
    (h : conn.reader = f.toU8 :: rest) :
    read_flag conn = .ok (⟨rest, conn.writer, conn.magic⟩, f) := by
  simp [read_flag, read_exact, h, from_u8_toU8]

lemma read_flag_magic (conn c : Connection) (f : ConnectionFlag)
    (h : read_flag conn = .ok (c, f)) : c.magic = conn.magic := by
  cases hr : conn.reader with
  | nil => simp [read_flag, read_exact, hr] at h
  | cons b rest =>
    simp only [read_flag, read_exact, hr, List.length_cons, List.take_succ_cons,
      List.take_zero, List.drop_succ_cons, List.drop_zero, List.headD_cons,
      Nat.le_add_left, if_pos] at h
    cases hu : ConnectionFlag.from_u8 b with
    | none => rw [hu] at h; simp at h
    | some g =>
      rw [hu] at h
      simp only [Except.ok.injEq, Prod.mk.injEq] at h
      rw [← h.1]

lemma read_until_newline_append (pre tail : List Nat) (h : 10 ∉ pre) :
    read_until_newline (pre ++ 10 :: tail) = (pre ++ [10], tail) := by
  induction pre with
  | nil => simp [read_until_newline]
  | cons b bs ih =>
    simp only [List.mem_cons, not_or] at h
    simp [read_until_newline, Ne.symm h.1, ih h.2]

/-- C8.  Wire-significant ordinals: the flag enumeration is numbered
densely from 0 in declaration order, so the byte written for each flag is
`MasterPing = 0`, `SlaveOk = 1`, `MasterWantsPath = 2`,
`MasterSendsPath = 3`, `MasterWantsExecution = 4`; moreover this ordinal
is exactly the single byte `write_flag` puts on the wire. -/
theorem flag_ordinals_dense :
    ConnectionFlag.toU8 .MasterPing = 0 ∧
    ConnectionFlag.toU8 .SlaveOk = 1 ∧
    ConnectionFlag.toU8 .MasterWantsPath = 2 ∧
    ConnectionFlag.toU8 .MasterSendsPath = 3 ∧
    ConnectionFlag.toU8 .MasterWantsExecution = 4 ∧
    ∀ conn f, (write_flag conn f).writer = conn.writer ++ [f.toU8] :=
  ⟨rfl, rfl, rfl, rfl, rfl, fun _ _ => rfl⟩

/-- C1.  Flag round-trip: `write_flag f` emits the single byte
`f.toU8`, and a peer whose stream delivers that byte reads back exactly
`f`; any byte outside the 5 defined ordinals makes `read_flag` fail with
`UnknownFlag`. -/
theorem flag_round_trip (sender peer bad : Connection) (f : ConnectionFlag)
    (rest rest2 : List Nat) (b : Nat)
    (hpeer : peer.reader = f.toU8 :: rest)
    (hbad : bad.reader = b :: rest2) (_hb : b < 256) (hb5 : 5 ≤ b) :
    (write_flag sender f).writer = sender.writer ++ [f.toU8] ∧
    read_flag peer = .ok (⟨rest, peer.writer, peer.magic⟩, f) ∧
    read_flag bad = .error .UnknownFlag := by
  refine ⟨rfl, read_flag_eq peer f rest hpeer, ?_⟩
  obtain ⟨n, hn⟩ := Nat.exists_eq_add_of_le hb5
  simp [read_flag, read_exact, hbad, hn, Nat.add_comm 5 n, from_u8_ge]

/-- Concrete run of `flag_round_trip`: `MasterSendsPath` (byte 3) round
trips and the byte 200 is rejected. -/
theorem flag_round_trip_witness :
    (write_flag ⟨[], [], []⟩ .MasterSendsPath).writer =
      [] ++ [ConnectionFlag.toU8 .MasterSendsPath] ∧
    read_flag ⟨[3], [], []⟩ = .ok (⟨[], [], []⟩, .MasterSendsPath) ∧
    read_flag ⟨[200], [], []⟩ = .error .UnknownFlag :=
  flag_round_trip ⟨[], [], []⟩ ⟨[3], [], []⟩ ⟨[200], [], []⟩
    .MasterSendsPath [] [] 200 rfl rfl (by decide) (by decide)

/-- C2.  Ping/ack: on reading the `MasterPing` byte 0x00, `handle_flags`
appends to the written stream exactly the connection's magic nonce
followed by the single `SlaveOk` byte 1, consumes nothing but the flag
byte, and leaves the nonce intact. -/
theorem ping_ack (conn : Connection) (rest : List Nat)
    (h : conn.reader = 0 :: rest) :
    handle_flags conn =
      .ok ⟨rest, conn.writer ++ conn.magic ++ [1], conn.magic⟩ := by
  have hr := read_flag_eq conn .MasterPing rest h
  simp [handle_flags, hr, write_magic, write_bytes, write_flag,
    ConnectionFlag.toU8]

/-- Concrete run of `ping_ack` on a ping byte followed by further
pending input. -/
theorem ping_ack_witness :
    handle_flags ⟨[0, 9], [4], [7, 7]⟩ = .ok ⟨[9], [4] ++ [7, 7] ++ [1], [7, 7]⟩ :=
  ping_ack ⟨[0, 9], [4], [7, 7]⟩ [9] rfl

/-- C7.  Unrouted-flag no-op: any defined flag other than `MasterPing`
makes `handle_flags` succeed, writing only the nonce echo and returning
the connection otherwise unchanged. -/
theorem unrouted_flag_noop (conn : Connection) (f : ConnectionFlag)
    (rest : List Nat) (hf : f ≠ .MasterPing)
    (h : conn.reader = f.toU8 :: rest) :
    handle_flags conn = .ok ⟨rest, conn.writer ++ conn.magic, conn.magic⟩ := by
  cases f
  case MasterPing => exact absurd rfl hf
  all_goals
    have hr := read_flag_eq conn _ rest h
    simp [handle_flags, hr, write_magic, write_bytes]

/-- Concrete run of `unrouted_flag_noop` on `MasterSendsPath`. -/
theorem unrouted_flag_noop_witness :
    handle_flags ⟨[3, 8], [2], [6, 6]⟩ = .ok ⟨[8], [2] ++ [6, 6], [6, 6]⟩ :=
  unrouted_flag_noop ⟨[3, 8], [2], [6, 6]⟩ .MasterSendsPath [8]
    (by decide) rfl

/-- C3 counterexample: `handle_flags` does NOT overwrite the nonce with
freshly-read wire bytes.  With nonce `3…3` and sixteen wire bytes `7…7`
pending right after the flag byte, the returned connection still holds
nonce `3…3`, the wire bytes are still unread, and the two differ. -/
theorem handle_flags_nonce_not_overwritten_cex :
    handle_flags ⟨0 :: List.replicate MAGIC_LENGTH 7, [],
        List.replicate MAGIC_LENGTH 3⟩ =
      .ok ⟨List.replicate MAGIC_LENGTH 7,
           List.replicate MAGIC_LENGTH 3 ++ [1],
           List.replicate MAGIC_LENGTH 3⟩ ∧
    (List.replicate MAGIC_LENGTH 3 : List Nat) ≠
      List.replicate MAGIC_LENGTH 7 :=
  ⟨rfl, by decide⟩

/-- C3 amended: immediately after reading a flag, `handle_flags` performs
`write_magic` — the write counterpart of the handshake operation — which
echoes the connection's existing nonce to the wire; the nonce field is
left unchanged and no wire bytes beyond the flag byte are consumed. -/
theorem handle_flags_writes_magic (conn : Connection) (f : ConnectionFlag)
    (rest : List Nat) (h : conn.reader = f.toU8 :: rest) :
    ∃ tail, handle_flags conn =
      .ok ⟨rest, (write_magic ⟨rest, conn.writer, conn.magic⟩).writer ++ tail,
           conn.magic⟩ := by
  have hr := read_flag_eq conn f rest h
  cases f
  case MasterPing =>
    refine ⟨[1], ?_⟩
    simp [handle_flags, hr, write_magic, write_bytes, write_flag,
      ConnectionFlag.toU8]
  all_goals
    refine ⟨[], ?_⟩
    simp [handle_flags, hr, write_magic, write_bytes]

/-- Concrete run of `handle_flags_writes_magic` on `MasterWantsPath`. -/
theorem handle_flags_writes_magic_witness :
    ∃ tail, handle_flags ⟨[2], [], [5, 5]⟩ =
      .ok ⟨[], (write_magic ⟨[], [], [5, 5]⟩).writer ++ tail, [5, 5]⟩ :=
  handle_flags_writes_magic ⟨[2], [], [5, 5]⟩ .MasterWantsPath [] rfl

/-- C4.  Nonce stability: `write_bytes`, `write_magic`, `read_flag`,
`write_flag` and `handle_flags` all return a connection whose magic nonce
is byte-for-byte the nonce of the consumed connection; only `read_magic`
replaces it. -/
theorem nonce_stability (conn cf c : Connection) (bytes : List Nat)
    (f g : ConnectionFlag)
    (hread : read_flag conn = .ok (cf, f))
    (hhandle : handle_flags conn = .ok c) :
    (write_bytes conn bytes).magic = conn.magic ∧
    (write_magic conn).magic = conn.magic ∧
    cf.magic = conn.magic ∧
    (write_flag conn g).magic = conn.magic ∧
    c.magic = conn.magic := by
  refine ⟨rfl, rfl, read_flag_magic conn cf f hread, rfl, ?_⟩
  have hm := read_flag_magic conn cf f hread
  simp only [handle_flags, hread] at hhandle
  cases f <;>
    simp only [write_flag, write_magic, write_bytes, Except.ok.injEq] at hhandle <;>
    rw [← hhandle] <;> exact hm

/-- Concrete run of `nonce_stability` on a connection delivering a
`MasterPing` byte. -/
theorem nonce_stability_witness :
    (write_bytes ⟨[0], [], [3]⟩ [7]).magic = [3] ∧
    (write_magic ⟨[0], [], [3]⟩).magic = [3] ∧
    Connection.magic ⟨[], [], [3]⟩ = [3] ∧
    (write_flag ⟨[0], [], [3]⟩ .SlaveOk).magic = [3] ∧
    Connection.magic ⟨[], [3, 1], [3]⟩ = [3] :=
  nonce_stability ⟨[0], [], [3]⟩ ⟨[], [], [3]⟩ ⟨[], [3, 1], [3]⟩
    [7] .MasterPing .SlaveOk rfl rfl

/-- C5.  Handshake symmetry: an initiator created with
`expect_magic = false` adopts the freshly generated nonce and writes
exactly it to the wire; an acceptor created with `expect_magic = true`
over a stream beginning with those bytes ends with its magic equal to the
initiator's nonce, before any flag is exchanged. -/
theorem handshake_symmetry (wire rest rng nonce : List Nat)
    (hlen : nonce.length = MAGIC_LENGTH) :
    create_for_stream wire false nonce =
      .ok ⟨wire, nonce, nonce⟩ ∧
    create_for_stream (nonce ++ rest) true rng =
      .ok ⟨rest, [], nonce⟩ := by
  constructor
  · simp [create_for_stream, write_magic, write_bytes]
  · simp [create_for_stream, read_magic, read_exact, List.length_append, hlen,
      List.take_left' hlen, List.drop_left' hlen, Nat.le_add_right]

/-- Concrete run of `handshake_symmetry` with the 16-byte nonce `9…9`. -/
theorem handshake_symmetry_witness :
    create_for_stream [] false (List.replicate 16 9) =
      .ok ⟨[], List.replicate 16 9, List.replicate 16 9⟩ ∧
    create_for_stream (List.replicate 16 9 ++ [0]) true [] =
      .ok ⟨[0], [], List.replicate 16 9⟩ :=
  handshake_symmetry [] [0] [] (List.replicate 16 9) (by decide)

/-- C6.  Receiver-side transfer framing: with a newline-terminated path
prefix on the stream, `buffered_file_write` takes every byte before the
first newline as the destination path, decodes it with the total lossy
UTF-8 decoding (so invalid sequences are replaced, never failing the
transfer), streams the terminator-delimited content, and then writes the
single `SlaveOk` byte 1 as acknowledgment. -/
theorem buffered_file_write_framing (conn : Connection)
    (pathBytes tail content rem : List Nat)
    (hnl : 10 ∉ pathBytes)
    (hreader : conn.reader = pathBytes ++ 10 :: tail)
    (hterm : stream_to_file conn.magic tail = some (content, rem)) :
    buffered_file_write conn =
      .ok (⟨rem, conn.writer ++ [1], conn.magic⟩,
           ⟨from_utf8_lossy pathBytes, content⟩) := by
  simp [buffered_file_write, hreader, read_until_newline_append pathBytes tail hnl,
    hterm, write_flag, write_bytes, ConnectionFlag.toU8, List.take_left]

/-- Concrete run of `buffered_file_write_framing`: the path bytes are the
single invalid UTF-8 byte 0xFF, which is lossily replaced by U+FFFD
rather than failing; content byte 65 is delimited by the magic `5…5` and
the `SlaveOk` byte is written. -/
theorem buffered_file_write_framing_witness :
    buffered_file_write
        ⟨[255, 10, 65] ++ List.replicate MAGIC_LENGTH 5 ++ [9, 9], [8],
         List.replicate MAGIC_LENGTH 5⟩ =
      .ok (⟨[9, 9], [8] ++ [1], List.replicate MAGIC_LENGTH 5⟩,
           ⟨[0xFFFD], [65]⟩) := by
  have h := buffered_file_write_framing
    ⟨[255, 10, 65] ++ List.replicate MAGIC_LENGTH 5 ++ [9, 9], [8],
     List.replicate MAGIC_LENGTH 5⟩
    [255] ([65] ++ List.replicate MAGIC_LENGTH 5 ++ [9, 9]) [65] [9, 9]
    (by decide) (by decide) (by decide)
  simpa using h

/-- C9.  `buffered_file_write` is not total: when the stream is at
end-of-file before any path byte arrives, the read-until-newline step
yields zero bytes and the slice `bytes[..bytes.len() - 1]` panics instead
of producing an error. -/
theorem buffered_file_write_eof_panics (conn : Connection)
    (h : conn.reader = []) : buffered_file_write conn = .panicked := by
  simp [buffered_file_write, read_until_newline, h]

/-- Concrete run of `buffered_file_write_eof_panics` on an exhausted
stream. -/
theorem buffered_file_write_eof_panics_witness :
    buffered_file_write ⟨[], [2], [4, 4]⟩ = .panicked :=
  buffered_file_write_eof_panics ⟨[], [2], [4, 4]⟩ rfl

end RCluster

namespace Registry

/-- C10.  `add_node` appends the address exactly when `ping_addr`
succeeds, which for a connected peer requires the single acknowledgment
byte to be non-zero; on any `ping_addr` failure the error is returned and
the address list is unchanged. -/
theorem add_node_appends_iff (net : PingNet) (c : Cluster) (addr : String)
    (b : Nat) :
    (ping_addr net addr = .ok () →
      add_node net c addr = (⟨c.addrs ++ [addr]⟩, .ok ())) ∧
    (∀ e, ping_addr net addr = .error e →
      add_node net c addr = (c, .error e)) ∧
    (ping_addr (.replied b) addr = .ok () ↔ 0 < b) := by
  refine ⟨fun h => by simp [add_node, h], fun e h => by simp [add_node, h], ?_⟩
  by_cases hb : 0 < b <;> simp [ping_addr, hb]

/-- Concrete runs of `add_node_appends_iff`: ack byte 1 registers the
address, ack byte 0 returns the failure and leaves the list unchanged. -/
theorem add_node_appends_iff_witness :
    add_node (.replied 1) ⟨[]⟩ "10.0.0.1:7777" =
      (⟨["10.0.0.1:7777"]⟩, .ok ()) ∧
    add_node (.replied 0) ⟨["a"]⟩ "b" =
      (⟨["a"]⟩, .error "Failure receiving message from address: b") :=
  ⟨by simpa using (add_node_appends_iff (.replied 1) ⟨[]⟩ "10.0.0.1:7777" 1).1 rfl,
   (add_node_appends_iff (.replied 0) ⟨["a"]⟩ "b" 0).2.1 _ rfl⟩

end Registry
